import Mathlib

/-!
Verification development for the gomlmmj repository (a Go wrapper around the
mlmmj mailing-list tool).  The development shallowly embeds the lock-registry
component (`ListManager`), the resource coordinator (`MLMMJWrapper`) and the
request/argument layer (`SubRequest`, `UnsubRequest`, `DockerHandler`) as pure
Lean functions and proves the specified properties about them.

Modelling conventions:
* Go maps become association lists; the possibly-nil map `ListManager.lists`
  becomes an `Option` (with `none` modelling the nil map of a freshly
  constructed manager, on which a write panics).
* A `sync.RWMutex` instance is modelled as an allocation identifier (`Nat`)
  into a heap of `LockState`s; `new(sync.RWMutex)` draws a fresh identifier
  from a monotone counter, so distinct allocations are distinct.
* The release closures returned by `ReadList`/`WriteList` become first-class
  `Release` values; `ListManager.applyRelease` gives their meaning.
* Go errors become the inductive `Err`; the distinguished error value
  `UnwatchedList` becomes the constructor `Err.unwatchedList`, the errors
  produced by `GetArgs` become the `invalid…`/`unknownSubMode` constructors,
  and opaque executor/discovery errors become `Err.handlerErr`.
* External collaborators (HTTP post, directory enumeration, the injected
  handler) are oracle functions passed as parameters.
* Goroutine/channel nondeterminism in the fan-out code is captured by an
  explicit arrival order: a permutation parameter listing the order in which
  the per-task channel messages are received.  A `context.Context`
  cancellation surfaces, as in the Go code, as an error returned by the
  handler oracle.
-/

namespace Gomlmmj

/-! ## Go `path.Join` / `path.Clean` (used by `listDir`) -/

/-- Index of the last character kept by the `..`-backtracking loop of Go's
`path.Clean`: starting from `w`, decrement while `w > dotdot` and the
character at `w` is not a slash. -/
def backtrackLoop (out : List Char) (dotdot : Nat) : Nat → Nat
  | 0 => 0
  | w + 1 =>
    if dotdot < w + 1 ∧ out.getD (w + 1) ' ' ≠ '/' then backtrackLoop out dotdot w
    else w + 1

/-- The `case out.w > dotdot` branch of Go's `path.Clean`: drop the last
path element of the output buffer (never dropping below `dotdot`). -/
def backtrack (out : List Char) (dotdot : Nat) : List Char :=
  out.take (backtrackLoop out dotdot (out.length - 1))

/-- The main scanning loop of Go's `path.Clean`, processing the remaining
input characters with the current output buffer, the `dotdot` barrier and
the `rooted` flag.  The loop consumes at least one input character per
iteration, so it is given `rem.length` as structural fuel (the fuel can
never run out before the input is exhausted; structural fuel keeps the
function kernel-reducible). -/
def cleanLoop (fuel : Nat) (rem out : List Char) (dotdot : Nat) (rooted : Bool) :
    List Char :=
  match fuel, rem with
  | _, [] => out
  | 0, _ :: _ => out
  | fuel + 1, c :: rest =>
    if c = '/' then
      -- empty path element
      cleanLoop fuel rest out dotdot rooted
    else if c = '.' ∧ (rest = [] ∨ rest.head? = some '/') then
      -- "." element
      cleanLoop fuel rest out dotdot rooted
    else if c = '.' ∧ rest.head? = some '.' ∧
        (rest.tail = [] ∨ rest.tail.head? = some '/') then
      -- ".." element
      if out.length > dotdot then
        cleanLoop fuel rest.tail (backtrack out dotdot) dotdot rooted
      else if rooted = false then
        let out2 := (if out.length > 0 then out ++ ['/'] else out) ++ ['.', '.']
        cleanLoop fuel rest.tail out2 out2.length rooted
      else
        cleanLoop fuel rest.tail out dotdot rooted
    else
      -- real path element: add slash if needed, then copy the element
      let elem := c :: rest.takeWhile (fun ch => ch != '/')
      let out2 :=
        (if (rooted ∧ out.length ≠ 1) ∨ (rooted = false ∧ out.length ≠ 0)
          then out ++ ['/'] else out) ++ elem
      cleanLoop fuel (rest.dropWhile (fun ch => ch != '/')) out2 dotdot rooted

/-- Go's `path.Clean`. -/
def pathClean (p : String) : String :=
  if p = "" then "."
  else
    let cs := p.toList
    let rooted := cs.head? = some '/'
    let out :=
      if rooted then cleanLoop cs.tail.length cs.tail ['/'] 1 true
      else cleanLoop cs.length cs [] 0 false
    if out = [] then "." else String.mk out

/-- Go's `path.Join`. -/
def pathJoin (elems : List String) : String :=
  if (elems.map String.length).sum = 0 then ""
  else
    let buf := elems.foldl
      (fun b e =>
        if b.length > 0 ∨ e ≠ "" then
          (if b.length > 0 then b ++ "/" ++ e else b ++ e)
        else b) ""
    pathClean buf

/-- Source function `listDir`: composes a spool directory and a logical list
name into the canonical resource name. -/
def listDir (spool name : String) : String :=
  pathJoin [spool, name]

/-! ## Errors and user types -/

/-- Go error values relevant to this development.  `unwatchedList` is the
distinguished `UnwatchedList` error value; `invalidSubMode`/`invalidUnsubMode`
are the `fmt.Errorf("Invalid subscription type …")` errors of `GetArgs`;
`unknownSubMode` is the `errors.New("Unkown subscription type")` error;
`handlerErr` stands for any opaque error produced by an external
collaborator (executor transport, directory enumeration, cancellation). -/
inductive Err where
  | unwatchedList
  | invalidSubMode (mode : Int)
  | invalidUnsubMode (mode : Int)
  | unknownSubMode
  | handlerErr (msg : String)
deriving DecidableEq, Repr

/-- Go `type UserType int`. -/
abbrev UserType := Int

def Subscriber : UserType := 0

def Digest : UserType := 1

def Nomail : UserType := 2

def Moderator : UserType := 3

def Owner : UserType := 4

/-! ## Requests and argument construction -/

/-- Source struct `SubRequest`. -/
structure SubRequest where
  Mail : String
  Name : String
  ModerationString : String
  Spool : String
  WelcomeMail : Bool
  ConfirmationMail : Bool
  ForceSubscription : Bool
  BeQuiet : Bool
  MailAlreadySubscribed : Bool
  Mode : UserType
deriving DecidableEq, Repr

/-- Source function `NewSubRequest`. -/
def NewSubRequest (mail name : String) : SubRequest where
  Mail := mail
  Name := name
  ModerationString := ""
  Spool := "/var/spool/mlmmj"
  WelcomeMail := true
  ConfirmationMail := false
  ForceSubscription := false
  BeQuiet := false
  MailAlreadySubscribed := false
  Mode := Subscriber

/-- Source method `SubRequest.GetArgs`: validates the mode and builds the
mlmmj-sub command-line arguments. -/
def SubRequest.GetArgs (r : SubRequest) : Except Err (List String) :=
  let subTypeE : Except Err String :=
    if r.Mode = Moderator ∨ r.Mode = Owner then .error (.invalidSubMode r.Mode)
    else if r.Mode = Subscriber then .ok ""
    else if r.Mode = Digest then .ok "-d"
    else if r.Mode = Nomail then .ok "-n"
    else .error .unknownSubMode
  match subTypeE with
  | .error e => .error e
  | .ok subType =>
    let args := ["-L", listDir r.Spool r.Name, "-a", r.Mail]
    let args := args ++ (if subType ≠ "" then [subType] else [])
    let args := args ++ (if r.WelcomeMail then ["-c"] else [])
    let args := args ++ (if r.ConfirmationMail then ["-C"] else [])
    let args := args ++ (if r.ForceSubscription then ["-f"] else [])
    let args := args ++ (if r.ModerationString ≠ "" then ["-m", r.ModerationString] else [])
    let args := args ++ (if r.BeQuiet then ["-q"] else [])
    let args := args ++ (if !r.MailAlreadySubscribed then ["-s"] else [])
    .ok args

/-- Source struct `UnsubRequest`; `Mode = -1` means "from all versions". -/
structure UnsubRequest where
  Mail : String
  Name : String
  Spool : String
  GoodBye : Bool
  ConfirmationMail : Bool
  BeQuiet : Bool
  MailNotSubscribed : Bool
  Mode : UserType
deriving DecidableEq, Repr

/-- Source function `NewUnsubRequest`. -/
def NewUnsubRequest (mail name : String) : UnsubRequest where
  Mail := mail
  Name := name
  Spool := "/var/spool/mlmmj"
  GoodBye := true
  ConfirmationMail := false
  BeQuiet := false
  MailNotSubscribed := false
  Mode := -1

/-- Source method `UnsubRequest.GetArgs`: validates the mode and builds the
mlmmj-unsub command-line arguments. -/
def UnsubRequest.GetArgs (r : UnsubRequest) : Except Err (List String) :=
  let subTypeE : Except Err String :=
    if r.Mode = Moderator ∨ r.Mode = Owner then .error (.invalidUnsubMode r.Mode)
    else if r.Mode = Subscriber then .ok "-N"
    else if r.Mode = Digest then .ok "-d"
    else if r.Mode = Nomail then .ok "-n"
    else if r.Mode = -1 then .ok ""
    else .error .unknownSubMode
  match subTypeE with
  | .error e => .error e
  | .ok subType =>
    let args := ["-L", listDir r.Spool r.Name]
    let args := args ++ (if subType ≠ "" then [subType] else [])
    let args := args ++ (if r.GoodBye then ["-c"] else [])
    let args := args ++ (if r.ConfirmationMail then ["-C"] else [])
    let args := args ++ (if r.BeQuiet then ["-q"] else [])
    let args := args ++ (if !r.MailNotSubscribed then ["-s"] else [])
    .ok args

/-! ## The lock registry (`ListManager`) -/

/-- State of one `sync.RWMutex` instance: the number of readers currently
holding it in shared mode, and whether a writer holds it exclusively. -/
structure LockState where
  readers : Nat
  writer : Bool
deriving DecidableEq, Repr

/-- The release closure returned by `ReadList`/`WriteList`, as a first-class
value: a no-op (unknown name), a shared unlock of lock `id`, or an exclusive
unlock of lock `id`. -/
inductive Release where
  | noop
  | runlock (id : Nat)
  | wunlock (id : Nat)
deriving DecidableEq, Repr

/-- The `ListManager` registry.  `lists` is the Go map from composed resource
name to the pointer of its `sync.RWMutex` (pointers are allocation ids into
`heap`); `none` models the nil map of a freshly constructed manager.  `heap`
holds every allocated lock instance, and `fresh` is the next allocation id,
so a `new(sync.RWMutex)` is always a fresh instance. -/
structure ListManager where
  lists : Option (List (String × Nat))
  heap : List (Nat × LockState)
  fresh : Nat
deriving DecidableEq, Repr

/-- Source function `NewListManager`: all fields zero-valued, in particular
the `lists` map is nil. -/
def NewListManager : ListManager where
  lists := none
  heap := []
  fresh := 0

/-- Association-list lookup used to model Go map reads (a read of a nil map
simply finds nothing). -/
def alookup (m : List (String × Nat)) (k : String) : Option Nat :=
  match m with
  | [] => none
  | (k2, v) :: t => if k2 = k then some v else alookup t k

/-- Lookup of a resource name in the registry map (nil map reads as empty). -/
def lmLookup (lm : ListManager) (k : String) : Option Nat :=
  match lm.lists with
  | none => none
  | some m => alookup m k

/-- Number of entries of the registry map. -/
def lmSize (lm : ListManager) : Nat :=
  match lm.lists with
  | none => 0
  | some m => m.length

/-- Update the state of the lock instance `id` in the heap. -/
def heapUpdate (h : List (Nat × LockState)) (id : Nat) (f : LockState → LockState) :
    List (Nat × LockState) :=
  h.map (fun p => if p.1 = id then (p.1, f p.2) else p)

/-- A Go runtime panic relevant to this development: writing to a nil map. -/
inductive GoPanic where
  | nilMapWrite
deriving DecidableEq, Repr

/-- Source method `ListManager.AddList`: under the exclusive top-level lock,
return false if the name is present, otherwise install a fresh
`sync.RWMutex` for it and return true.  On a nil map the membership read
finds nothing and the subsequent map write panics. -/
def ListManager.AddList (lm : ListManager) (name : String) :
    Except GoPanic (Bool × ListManager) :=
  match lm.lists with
  | none => .error .nilMapWrite
  | some m =>
    if (alookup m name).isSome then .ok (false, lm)
    else
      .ok (true,
        { lm with
          lists := some ((name, lm.fresh) :: m)
          heap := (lm.fresh, ⟨0, false⟩) :: lm.heap
          fresh := lm.fresh + 1 })

/-- Source method `ListManager.RemoveList`: under the exclusive top-level
lock, delete the entry if present (returning true), else return false. -/
def ListManager.RemoveList (lm : ListManager) (name : String) : Bool × ListManager :=
  match lm.lists with
  | none => (false, lm)
  | some m =>
    if (alookup m name).isSome then
      (true, { lm with lists := some (m.filter (fun p => p.1 != name)) })
    else (false, lm)

/-- Source method `ListManager.ReadList`: under the shared top-level lock,
look the name up; if absent return `(false, no-op release)`; if present
acquire the resource lock in shared mode and return the matching shared
unlock as the release.  The returned `ListManager` is the registry state
after the acquisition. -/
def ListManager.ReadList (lm : ListManager) (name : String) :
    Bool × Release × ListManager :=
  match lmLookup lm name with
  | none => (false, .noop, lm)
  | some id =>
    (true, .runlock id,
      { lm with heap := heapUpdate lm.heap id (fun s => { s with readers := s.readers + 1 }) })

/-- Source method `ListManager.WriteList`: like `ReadList` but the resource
lock is acquired in exclusive mode.  The model records the state reached
once `m.Lock()` has returned (`m.Lock()` completes only when the lock is
free, see the availability hypotheses of the theorems below). -/
def ListManager.WriteList (lm : ListManager) (name : String) :
    Bool × Release × ListManager :=
  match lmLookup lm name with
  | none => (false, .noop, lm)
  | some id =>
    (true, .wunlock id,
      { lm with heap := heapUpdate lm.heap id (fun s => { s with writer := true }) })

/-- Meaning of invoking a release closure on the registry state. -/
def ListManager.applyRelease (lm : ListManager) : Release → ListManager
  | .noop => lm
  | .runlock id =>
    { lm with heap := heapUpdate lm.heap id (fun s => { s with readers := s.readers - 1 }) }
  | .wunlock id =>
    { lm with heap := heapUpdate lm.heap id (fun s => { s with writer := false }) }

/-! ## Registry initialization -/

/-- A directory entry as reported by `ioutil.ReadDir` (name and whether it
is a directory); the enumeration itself is an external oracle. -/
structure FileInfo where
  name : String
  isDir : Bool
deriving DecidableEq, Repr

/-- Source function `GetLists`: enumerate the spool directory and keep the
names of its subdirectories; on an enumeration error return no names and
the error. -/
def GetLists (readDir : String → Except Err (List FileInfo)) (spool : String) :
    List String × Option Err :=
  match readDir spool with
  | .error e => ([], some e)
  | .ok files => ((files.filter (fun f => f.isDir)).map (fun f => f.name), none)

/-- One discovery goroutine of `ListManager.Init`: enumerate one spool and
compose each discovered list name with the spool directory. -/
def initTask (readDir : String → Except Err (List FileInfo)) (spool : String) :
    List String × Option Err :=
  let (lists, err) := GetLists readDir spool
  (lists.map (fun l => listDir spool l), err)

/-- Install a block of discovered names via `AddList`.  `AddList` cannot
panic here because `Init` re-creates the map before any goroutine runs; the
`.error` case is therefore unreachable and keeps the state unchanged. -/
def addAll (lm : ListManager) (names : List String) : ListManager :=
  names.foldl
    (fun acc n =>
      match acc.AddList n with
      | .ok r => r.2
      | .error _ => acc) lm

/-- The error-collection loop of `Init` (and of the fan-out reads): keep the
first non-nil error received, never overwriting an already captured one. -/
def firstErr (l : List (Option Err)) : Option Err :=
  l.foldl
    (fun acc e =>
      match acc with
      | some _ => acc
      | none => e) none

/-- Source method `ListManager.Init`: replace the map by a fresh empty one,
run one discovery goroutine per spool (each enumerating its spool and adding
every composed name), and collect the first non-nil error from the channel.
`order` is the order in which the goroutines finish (their channel sends are
received in this order); it must be a permutation of the source indices.
Each goroutine's `AddList` calls are applied as a block in that order: the
fan-in loop receives all messages before returning, and the resulting name
set and first error are invariant under finer interleavings of the
individual lock-protected `AddList` calls. -/
def ListManager.Init (lm : ListManager) (readDir : String → Except Err (List FileInfo))
    (spoolList : List String) (order : List Nat) : ListManager × Option Err :=
  let lm0 : ListManager := { lm with lists := some [] }
  let task := fun i => initTask readDir (spoolList.getD i "")
  let lm1 := order.foldl (fun acc i => addAll acc (task i).1) lm0
  (lm1, firstErr (order.map (fun i => (task i).2)))

/-! ## Lock-event traces (for the top-level-lock holding discipline) -/

/-- Events in the lock-acquisition trace of `ReadList`/`WriteList` and of
the coordinator operations built on them. -/
inductive LockEvent where
  | topRLock
  | topRUnlock
  | resRLock (id : Nat)
  | resWLock (id : Nat)
  | resRUnlock (id : Nat)
  | resWUnlock (id : Nat)
  | execCall
deriving DecidableEq, Repr

/-- The event trace of `ListManager.ReadList`, line by line: the top-level
`RLock` at entry, the per-resource `RLock` when the name is found, and the
deferred top-level `RUnlock`, which Go runs when the function returns -
that is, after `m.RLock()` has completed. -/
def ListManager.ReadListTrace (lm : ListManager) (name : String) : List LockEvent :=
  match lmLookup lm name with
  | none => [.topRLock, .topRUnlock]
  | some id => [.topRLock, .resRLock id, .topRUnlock]

/-- The event trace of `ListManager.WriteList` (see `ReadListTrace`). -/
def ListManager.WriteListTrace (lm : ListManager) (name : String) : List LockEvent :=
  match lmLookup lm name with
  | none => [.topRLock, .topRUnlock]
  | some id => [.topRLock, .resWLock id, .topRUnlock]

/-- Whether an event is a per-resource lock acquisition. -/
def LockEvent.isResAcquire : LockEvent → Bool
  | .resRLock _ => true
  | .resWLock _ => true
  | _ => false

/-- Rendering of the claim "the top-level lock is released before the
per-resource lock acquisition completes": every `topRUnlock` in the trace
precedes every per-resource acquisition event. -/
def topReleasedBeforeResAcquire (tr : List LockEvent) : Prop :=
  ∀ i j, (hi : i < tr.length) → (hj : j < tr.length) →
    tr.get ⟨i, hi⟩ = .topRUnlock → (tr.get ⟨j, hj⟩).isResAcquire = true → i < j

/-! ## The resource coordinator (`MLMMJWrapper`) -/

/-- The injected `MLMMJHandler` (Operation Executor), as an oracle record.
The Go methods additionally take a `context.Context`; a cancellation that
fires during a call surfaces, exactly as in Go, as an error in the returned
pair, so the context parameter is absorbed into the oracle.  The Go method
`List` is modelled by the field `ListOp` (Lean does not allow shadowing the
`List` type inside its own declaration). -/
structure MLMMJHandler where
  MakeML : String → String → String → String → String → String × Option Err
  Sub : SubRequest → String × Option Err
  Unsub : UnsubRequest → String × Option Err
  ListOp : String → String → UserType → List String × Option Err
  Count : String → String → UserType → Int × Option Err

/-- Source struct `MLMMJWrapper`. -/
structure MLMMJWrapper where
  lm : ListManager
  handler : MLMMJHandler

/-- Instrumented result of one coordinator operation: the returned value and
error, the registry state when the operation returns (all invoked releases
applied), the number of guard acquisitions (`ReadList`/`WriteList` calls)
made during the call, the number of Executor (handler) invocations, and the
release closures invoked, in order. -/
structure OpResult (α : Type) where
  res : α
  err : Option Err
  lm : ListManager
  guardAcquisitions : Nat
  executorCalls : Nat
  releaseCalls : List Release
deriving DecidableEq, Repr

/-- Source method `MLMMJWrapper.MakeML`: call the Executor with no guard;
on success register the composed name via `AddList` (which may panic only
on an uninitialized registry). -/
def MLMMJWrapper.MakeML (wrapper : MLMMJWrapper) (spool name domain owner lang : String) :
    Except GoPanic (OpResult String) :=
  let (output, err) := wrapper.handler.MakeML spool name domain owner lang
  match err with
  | some e =>
    .ok { res := output, err := some e, lm := wrapper.lm,
          guardAcquisitions := 0, executorCalls := 1, releaseCalls := [] }
  | none =>
    match wrapper.lm.AddList (listDir spool name) with
    | .error p => .error p
    | .ok r =>
      .ok { res := output, err := none, lm := r.2,
            guardAcquisitions := 0, executorCalls := 1, releaseCalls := [] }

/-- Source method `MLMMJWrapper.Sub`: write-guard the composed name; if
unknown, return `UnwatchedList` (the deferred release - a no-op here - still
runs); otherwise delegate to the Executor and release on return. -/
def MLMMJWrapper.Sub (wrapper : MLMMJWrapper) (r : SubRequest) : OpResult String :=
  let (hasList, lock, lm1) := wrapper.lm.WriteList (listDir r.Spool r.Name)
  if hasList then
    let (output, err) := wrapper.handler.Sub r
    { res := output, err := err, lm := lm1.applyRelease lock,
      guardAcquisitions := 1, executorCalls := 1, releaseCalls := [lock] }
  else
    { res := "", err := some .unwatchedList, lm := lm1.applyRelease lock,
      guardAcquisitions := 1, executorCalls := 0, releaseCalls := [lock] }

/-- Source method `MLMMJWrapper.Unsub` (same shape as `Sub`). -/
def MLMMJWrapper.Unsub (wrapper : MLMMJWrapper) (r : UnsubRequest) : OpResult String :=
  let (hasList, lock, lm1) := wrapper.lm.WriteList (listDir r.Spool r.Name)
  if hasList then
    let (output, err) := wrapper.handler.Unsub r
    { res := output, err := err, lm := lm1.applyRelease lock,
      guardAcquisitions := 1, executorCalls := 1, releaseCalls := [lock] }
  else
    { res := "", err := some .unwatchedList, lm := lm1.applyRelease lock,
      guardAcquisitions := 1, executorCalls := 0, releaseCalls := [lock] }

/-- Source method `MLMMJWrapper.List` (modelled as `ListOp`, see
`MLMMJHandler`): read-guard the composed name, then delegate. -/
def MLMMJWrapper.ListOp (wrapper : MLMMJWrapper) (spool name : String) (mode : UserType) :
    OpResult (List String) :=
  let (hasList, lock, lm1) := wrapper.lm.ReadList (listDir spool name)
  if hasList then
    let (out, err) := wrapper.handler.ListOp spool name mode
    { res := out, err := err, lm := lm1.applyRelease lock,
      guardAcquisitions := 1, executorCalls := 1, releaseCalls := [lock] }
  else
    { res := [], err := some .unwatchedList, lm := lm1.applyRelease lock,
      guardAcquisitions := 1, executorCalls := 0, releaseCalls := [lock] }

/-- The member categories queried by `ListAllMembers`, in source order. -/
def memberCats : List UserType := [Subscriber, Digest, Nomail]

/-- The controller categories queried by `ListAllControllers`, in source
order. -/
def controllerCats : List UserType := [Owner, Moderator]

/-- Source method `MLMMJWrapper.ListAllMembers`: under one read guard,
spawn one query goroutine per member category; each goroutine writes its
partial result into its named-return slot and sends its error on the
channel.  The fan-in loop receives all three messages (so every slot is
written before the function returns) and keeps the first non-nil error in
arrival order.  `order` is the arrival order of the three channel messages,
a permutation of `[0, 1, 2]`. -/
def MLMMJWrapper.ListAllMembers (wrapper : MLMMJWrapper) (spool name : String)
    (order : List Nat) : OpResult (List String × List String × List String) :=
  let (hasList, lock, lm1) := wrapper.lm.ReadList (listDir spool name)
  if hasList then
    let task := fun i => wrapper.handler.ListOp spool name (memberCats.getD i (-1))
    { res := ((task 0).1, (task 1).1, (task 2).1)
      err := firstErr (order.map (fun i => (task i).2))
      lm := lm1.applyRelease lock
      guardAcquisitions := 1, executorCalls := 3, releaseCalls := [lock] }
  else
    { res := ([], [], []), err := some .unwatchedList, lm := lm1.applyRelease lock,
      guardAcquisitions := 1, executorCalls := 0, releaseCalls := [lock] }

/-- Source method `MLMMJWrapper.ListAllControllers`: like `ListAllMembers`
with the two controller categories; `order` is a permutation of `[0, 1]`. -/
def MLMMJWrapper.ListAllControllers (wrapper : MLMMJWrapper) (spool name : String)
    (order : List Nat) : OpResult (List String × List String) :=
  let (hasList, lock, lm1) := wrapper.lm.ReadList (listDir spool name)
  if hasList then
    let task := fun i => wrapper.handler.ListOp spool name (controllerCats.getD i (-1))
    { res := ((task 0).1, (task 1).1)
      err := firstErr (order.map (fun i => (task i).2))
      lm := lm1.applyRelease lock
      guardAcquisitions := 1, executorCalls := 2, releaseCalls := [lock] }
  else
    { res := ([], []), err := some .unwatchedList, lm := lm1.applyRelease lock,
      guardAcquisitions := 1, executorCalls := 0, releaseCalls := [lock] }

/-- Source method `MLMMJWrapper.Count`: read-guard the composed name, then
delegate; on an unknown name return `-1` and `UnwatchedList`. -/
def MLMMJWrapper.Count (wrapper : MLMMJWrapper) (spool name : String) (mode : UserType) :
    OpResult Int :=
  let (hasList, lock, lm1) := wrapper.lm.ReadList (listDir spool name)
  if hasList then
    let (c, err) := wrapper.handler.Count spool name mode
    { res := c, err := err, lm := lm1.applyRelease lock,
      guardAcquisitions := 1, executorCalls := 1, releaseCalls := [lock] }
  else
    { res := -1, err := some .unwatchedList, lm := lm1.applyRelease lock,
      guardAcquisitions := 1, executorCalls := 0, releaseCalls := [lock] }

/-- The lock-event trace of `MLMMJWrapper.Sub`: the `WriteList` trace (whose
deferred top-level unlock runs when `WriteList` returns), then - only when
the name was found - the Executor call and the deferred invocation of the
guard's release when `Sub` itself returns. -/
def MLMMJWrapper.SubTrace (wrapper : MLMMJWrapper) (r : SubRequest) : List LockEvent :=
  let key := listDir r.Spool r.Name
  match lmLookup wrapper.lm key with
  | none => [.topRLock, .topRUnlock]
  | some id => [.topRLock, .resWLock id, .topRUnlock, .execCall, .resWUnlock id]

/-- Source method `DockerHandler.Unsub`: build the arguments via
`UnsubRequest.GetArgs`; on a validation error return it without contacting
the service, otherwise post the mlmmj-unsub command.  The HTTP transport
(`DockerHandler.post`) is the external oracle `post`. -/
def DockerHandler.Unsub (post : String → List String → String × Option Err)
    (r : UnsubRequest) : String × Option Err :=
  match r.GetArgs with
  | .error e => ("", some e)
  | .ok args => post "mlmmj-unsub" args

/-! ## Concrete fixtures used by witnesses and counterexamples -/

/-- A registry that knows the single composed name `/s/l` (lock id 0). -/
def lmEx : ListManager where
  lists := some [("/s/l", 0)]
  heap := [(0, ⟨0, false⟩)]
  fresh := 1

/-- An initialized registry that knows no name. -/
def lmEmpty : ListManager where
  lists := some []
  heap := []
  fresh := 0

/-- A handler oracle whose calls all succeed. -/
def handlerOK : MLMMJHandler where
  MakeML := fun _ _ _ _ _ => ("made", none)
  Sub := fun _ => ("sub-ok", none)
  Unsub := fun _ => ("unsub-ok", none)
  ListOp := fun _ _ _ => (["a@x"], none)
  Count := fun _ _ _ => (2, none)

/-- A handler oracle whose calls all fail. -/
def handlerFail : MLMMJHandler where
  MakeML := fun _ _ _ _ _ => ("", some (.handlerErr "mk"))
  Sub := fun _ => ("", some (.handlerErr "sub"))
  Unsub := fun _ => ("", some (.handlerErr "unsub"))
  ListOp := fun _ _ _ => ([], some (.handlerErr "ls"))
  Count := fun _ _ _ => (-1, some (.handlerErr "cnt"))

/-- A handler oracle for the fan-out schedule counterexample: the Subscriber
query fails with error "A", the Digest query fails with error "B" while
still producing partial data, and the Nomail query succeeds. -/
def handlerC3 : MLMMJHandler where
  MakeML := fun _ _ _ _ _ => ("made", none)
  Sub := fun _ => ("sub-ok", none)
  Unsub := fun _ => ("unsub-ok", none)
  ListOp := fun _ _ mode =>
    if mode = Subscriber then ([], some (.handlerErr "A"))
    else if mode = Digest then (["d@x"], some (.handlerErr "B"))
    else (["n@x"], none)
  Count := fun _ _ _ => (2, none)

/-- A handler whose unsubscribe path is the modelled `DockerHandler.Unsub`
over a transport oracle that would succeed if it were reached. -/
def handlerDockerEx : MLMMJHandler :=
  { handlerOK with Unsub := DockerHandler.Unsub (fun _ _ => ("posted", none)) }

/-- A handler oracle where exactly one member-category query (Digest)
fails; the others succeed with data. -/
def handlerOneFail : MLMMJHandler :=
  { handlerOK with
    ListOp := fun _ _ mode =>
      if mode = Digest then ([], some (.handlerErr "B")) else (["ok@x"], none) }

/-- A directory-enumeration oracle over three spools, the middle of which
fails. -/
def readDirEx : String → Except Err (List FileInfo) :=
  fun spool =>
    if spool = "/a" then .ok [⟨"l1", true⟩, ⟨"f", false⟩]
    else if spool = "/b" then .error (.handlerErr "boom")
    else if spool = "/c" then .ok [⟨"l2", true⟩]
    else .ok []

/-- Coordinator over the empty registry and the all-succeeding handler. -/
def wrapperEmpty : MLMMJWrapper where
  lm := lmEmpty
  handler := handlerOK

/-- Coordinator that knows `/s/l`, all-succeeding handler. -/
def wrapperEx : MLMMJWrapper where
  lm := lmEx
  handler := handlerOK

/-- Coordinator that knows `/s/l`, all-failing handler. -/
def wrapperExFail : MLMMJWrapper where
  lm := lmEx
  handler := handlerFail

/-- Coordinator that knows `/s/l`, fan-out counterexample handler. -/
def wrapperC3 : MLMMJWrapper where
  lm := lmEx
  handler := handlerC3

/-- Coordinator that knows `/s/l`, docker-modelled unsubscribe handler. -/
def wrapperC2 : MLMMJWrapper where
  lm := lmEx
  handler := handlerDockerEx

/-- Coordinator that knows `/s/l`, exactly one failing category query. -/
def wrapperOneFail : MLMMJWrapper where
  lm := lmEx
  handler := handlerOneFail

/-! ## Helper lemmas -/

theorem alookup_cons (k2 : String) (v : Nat) (t : List (String × Nat)) (k : String) :
    alookup ((k2, v) :: t) k = if k2 = k then some v else alookup t k := rfl

theorem alookup_none_filter_eq (m : List (String × Nat)) (k : String)
    (h : alookup m k = none) : m.filter (fun p => p.1 != k) = m := by
  induction m with
  | nil => rfl
  | cons p t ih =>
    obtain ⟨k2, v⟩ := p
    rw [alookup_cons] at h
    by_cases hk : k2 = k
    · simp [hk] at h
    · simp only [hk, if_false] at h
      have hb : (k2 != k) = true := by simp [hk]
      simp [List.filter, hb, ih h]

theorem heapUpdate_heapUpdate (h : List (Nat × LockState)) (id : Nat)
    (f g : LockState → LockState) :
    heapUpdate (heapUpdate h id f) id g = heapUpdate h id (fun s => g (f s)) := by
  simp only [heapUpdate, List.map_map]
  congr 1
  funext p
  by_cases hp : p.1 = id <;> simp [hp]

theorem heapUpdate_eq_self (hd : List (Nat × LockState)) (id : Nat)
    (f : LockState → LockState) :
    (∀ s, (id, s) ∈ hd → f s = s) → heapUpdate hd id f = hd := by
  induction hd with
  | nil => intro _; rfl
  | cons p t ih =>
    intro hf
    obtain ⟨p1, p2⟩ := p
    have ht : heapUpdate t id f = t := ih (fun s hs => hf s (List.mem_cons_of_mem _ hs))
    simp only [heapUpdate, List.map_cons] at *
    by_cases hp : p1 = id
    · subst hp
      have hs : f p2 = p2 := hf p2 (List.mem_cons_self _ _)
      simp [hs, ht]
    · simp [hp, ht]

theorem heapUpdate_readers_cancel (h : List (Nat × LockState)) (id : Nat) :
    heapUpdate (heapUpdate h id (fun s => { s with readers := s.readers + 1 })) id
      (fun s => { s with readers := s.readers - 1 }) = h := by
  rw [heapUpdate_heapUpdate]
  apply heapUpdate_eq_self
  intro s _
  simp

theorem firstErr_go_some (l : List (Option Err)) (e : Err) :
    l.foldl (fun acc x => match acc with | some _ => acc | none => x) (some e) = some e := by
  induction l with
  | nil => rfl
  | cons x t ih => simpa using ih

theorem firstErr_cons (x : Option Err) (l : List (Option Err)) :
    firstErr (x :: l) = match x with | some e => some e | none => firstErr l := by
  cases x with
  | none => rfl
  | some e => simp [firstErr, firstErr_go_some]

theorem firstErr_eq_none_iff (l : List (Option Err)) :
    firstErr l = none ↔ ∀ x ∈ l, x = none := by
  induction l with
  | nil => simp [firstErr]
  | cons x t ih =>
    rw [firstErr_cons]
    cases x with
    | none => simpa using ih
    | some e => simp

theorem firstErr_of_single (order : List Nat) (g : Nat → Option Err) (j : Nat) (e : Err)
    (hj : j ∈ order) (hg : g j = some e) (hrest : ∀ i ∈ order, i ≠ j → g i = none) :
    firstErr (order.map g) = some e := by
  induction order with
  | nil => cases hj
  | cons i t ih =>
    rw [List.map_cons, firstErr_cons]
    by_cases hij : i = j
    · rw [hij, hg]
    · rw [hrest i (List.mem_cons_self i t) hij]
      exact ih (by cases hj with
        | head => exact absurd rfl hij
        | tail _ h => exact h)
        (fun i2 h2 hne => hrest i2 (List.mem_cons_of_mem i h2) hne)

theorem firstErr_append_some (l1 l2 : List (Option Err)) (e : Err)
    (h : firstErr l1 = some e) : firstErr (l1 ++ l2) = some e := by
  induction l1 with
  | nil => simp [firstErr] at h
  | cons x t ih =>
    rw [List.cons_append, firstErr_cons] at *
    cases x with
    | none => exact ih h
    | some e2 => exact h

/-! ## Claims -/

/-- C1: for every operation on a named resource (Sub, Unsub, List,
ListAllMembers, ListAllControllers, Count), if the composed name is absent
from the registry the operation fails immediately with the distinct
`UnwatchedList` error, the Executor is never invoked, and the returned
no-op release function is still invoked (by the deferred call). -/
theorem C1_unknown_resource_rejected (w : MLMMJWrapper) :
    (∀ r : SubRequest, lmLookup w.lm (listDir r.Spool r.Name) = none →
      (w.Sub r).err = some .unwatchedList ∧ (w.Sub r).res = "" ∧
      (w.Sub r).executorCalls = 0 ∧ (w.Sub r).releaseCalls = [.noop])
    ∧ (∀ r : UnsubRequest, lmLookup w.lm (listDir r.Spool r.Name) = none →
      (w.Unsub r).err = some .unwatchedList ∧ (w.Unsub r).res = "" ∧
      (w.Unsub r).executorCalls = 0 ∧ (w.Unsub r).releaseCalls = [.noop])
    ∧ (∀ spool name mode, lmLookup w.lm (listDir spool name) = none →
      (w.ListOp spool name mode).err = some .unwatchedList ∧
      (w.ListOp spool name mode).res = [] ∧
      (w.ListOp spool name mode).executorCalls = 0 ∧
      (w.ListOp spool name mode).releaseCalls = [.noop])
    ∧ (∀ spool name order, lmLookup w.lm (listDir spool name) = none →
      (w.ListAllMembers spool name order).err = some .unwatchedList ∧
      (w.ListAllMembers spool name order).res = ([], [], []) ∧
      (w.ListAllMembers spool name order).executorCalls = 0 ∧
      (w.ListAllMembers spool name order).releaseCalls = [.noop])
    ∧ (∀ spool name order, lmLookup w.lm (listDir spool name) = none →
      (w.ListAllControllers spool name order).err = some .unwatchedList ∧
      (w.ListAllControllers spool name order).res = ([], []) ∧
      (w.ListAllControllers spool name order).executorCalls = 0 ∧
      (w.ListAllControllers spool name order).releaseCalls = [.noop])
    ∧ (∀ spool name mode, lmLookup w.lm (listDir spool name) = none →
      (w.Count spool name mode).err = some .unwatchedList ∧
      (w.Count spool name mode).res = -1 ∧
      (w.Count spool name mode).executorCalls = 0 ∧
      (w.Count spool name mode).releaseCalls = [.noop]) := by
  refine ⟨?_, ?_, ?_, ?_, ?_, ?_⟩
  · intro r h
    simp [MLMMJWrapper.Sub, ListManager.WriteList, h, ListManager.applyRelease]
  · intro r h
    simp [MLMMJWrapper.Unsub, ListManager.WriteList, h, ListManager.applyRelease]
  · intro spool name mode h
    simp [MLMMJWrapper.ListOp, ListManager.ReadList, h, ListManager.applyRelease]
  · intro spool name order h
    simp [MLMMJWrapper.ListAllMembers, ListManager.ReadList, h, ListManager.applyRelease]
  · intro spool name order h
    simp [MLMMJWrapper.ListAllControllers, ListManager.ReadList, h, ListManager.applyRelease]
  · intro spool name mode h
    simp [MLMMJWrapper.Count, ListManager.ReadList, h, ListManager.applyRelease]

/-- Witness for C1 at the empty registry and concrete requests. -/
theorem C1_witness :
    lmLookup wrapperEmpty.lm (listDir "/s" "l") = none ∧
    ((wrapperEmpty.Sub { NewSubRequest "a@x" "l" with Spool := "/s" }).err =
        some .unwatchedList ∧
      (wrapperEmpty.Sub { NewSubRequest "a@x" "l" with Spool := "/s" }).res = "" ∧
      (wrapperEmpty.Sub { NewSubRequest "a@x" "l" with Spool := "/s" }).executorCalls = 0 ∧
      (wrapperEmpty.Sub { NewSubRequest "a@x" "l" with Spool := "/s" }).releaseCalls = [.noop]) ∧
    ((wrapperEmpty.Count "/s" "l" Subscriber).err = some .unwatchedList ∧
      (wrapperEmpty.Count "/s" "l" Subscriber).res = -1 ∧
      (wrapperEmpty.Count "/s" "l" Subscriber).executorCalls = 0 ∧
      (wrapperEmpty.Count "/s" "l" Subscriber).releaseCalls = [.noop]) :=
  ⟨by decide,
    (C1_unknown_resource_rejected wrapperEmpty).1
      { NewSubRequest "a@x" "l" with Spool := "/s" } (by decide),
    (C1_unknown_resource_rejected wrapperEmpty).2.2.2.2.2 "/s" "l" Subscriber (by decide)⟩

/-- C7: for every name not present in the registry, `ReadList` and
`WriteList` return found=false together with the safe no-op release and
leave the registry (in particular its mapping) unchanged. -/
theorem C7_unknown_name_noop_release (lm : ListManager) (name : String)
    (h : lmLookup lm name = none) :
    lm.ReadList name = (false, .noop, lm) ∧ lm.WriteList name = (false, .noop, lm) := by
  constructor
  · simp [ListManager.ReadList, h]
  · simp [ListManager.WriteList, h]

/-- Witness for C7 at a concrete registry and name. -/
theorem C7_witness :
    lmLookup lmEmpty "/s/l" = none ∧
      lmEmpty.ReadList "/s/l" = (false, .noop, lmEmpty) ∧
      lmEmpty.WriteList "/s/l" = (false, .noop, lmEmpty) :=
  ⟨by decide, C7_unknown_name_noop_release lmEmpty "/s/l" (by decide)⟩

/-- C10: `AddList` on a freshly constructed `ListManager` (before `Init`)
panics with a nil-map write instead of returning true; on an initialized
registry (`lists` is a real map) `AddList` always returns normally. -/
theorem C10_addlist_nil_map_panics (name : String) :
    NewListManager.AddList name = .error .nilMapWrite ∧
      ∀ (lm : ListManager) (m : List (String × Nat)), lm.lists = some m →
        ∃ b lm2, lm.AddList name = .ok (b, lm2) := by
  refine ⟨rfl, ?_⟩
  intro lm m hm
  simp only [ListManager.AddList, hm]
  by_cases h : (alookup m name).isSome
  · exact ⟨false, lm, by simp [h]⟩
  · exact ⟨true,
      { lm with
        lists := some ((name, lm.fresh) :: m)
        heap := (lm.fresh, ⟨0, false⟩) :: lm.heap
        fresh := lm.fresh + 1 }, by simp [h]⟩

/-- Witness for C10 at a concrete name and initialized registry. -/
theorem C10_witness :
    NewListManager.AddList "a" = .error .nilMapWrite ∧
      ∃ b lm2, lmEmpty.AddList "a" = .ok (b, lm2) :=
  ⟨(C10_addlist_nil_map_panics "a").1,
    (C10_addlist_nil_map_panics "a").2 lmEmpty [] rfl⟩

/-- C6: adding an absent name installs a fresh per-resource lock and returns
true (mapping size +1); an immediate second `AddList` returns false as a
no-op, leaving the registry - in particular the resource's lock identity -
unchanged; and after `RemoveList` and a subsequent `AddList` of the same
name the installed lock is a fresh instance, never the removed one. -/
theorem C6_add_twice_and_fresh_lock (lm : ListManager) (m : List (String × Nat))
    (name : String) (hm : lm.lists = some m) (habs : alookup m name = none) :
    ∃ lm1, lm.AddList name = .ok (true, lm1)
      ∧ lmSize lm1 = lmSize lm + 1
      ∧ lmLookup lm1 name = some lm.fresh
      ∧ lm1.AddList name = .ok (false, lm1)
      ∧ ∃ lm2, lm1.RemoveList name = (true, lm2)
        ∧ ∃ lm3, lm2.AddList name = .ok (true, lm3)
          ∧ lmLookup lm3 name = some (lm.fresh + 1)
          ∧ lmLookup lm3 name ≠ lmLookup lm1 name := by
  refine ⟨{ lm with
      lists := some ((name, lm.fresh) :: m)
      heap := (lm.fresh, ⟨0, false⟩) :: lm.heap
      fresh := lm.fresh + 1 }, ?_, ?_, ?_, ?_, ?_⟩
  · simp [ListManager.AddList, hm, habs]
  · simp [lmSize, hm]
  · simp [lmLookup, alookup]
  · simp [ListManager.AddList, alookup]
  · have hfil : ((name, lm.fresh) :: m).filter (fun p => p.1 != name) = m := by
      simp [List.filter_cons, alookup_none_filter_eq m name habs]
    refine ⟨{ lm with
        lists := some m
        heap := (lm.fresh, ⟨0, false⟩) :: lm.heap
        fresh := lm.fresh + 1 }, ?_, ?_⟩
    · simp [ListManager.RemoveList, alookup, hfil]
    · refine ⟨{ lm with
          lists := some ((name, lm.fresh + 1) :: m)
          heap := (lm.fresh + 1, ⟨0, false⟩) :: (lm.fresh, ⟨0, false⟩) :: lm.heap
          fresh := lm.fresh + 2 }, ?_, ?_, ?_⟩
      · simp [ListManager.AddList, habs]
      · simp [lmLookup, alookup]
      · simp [lmLookup, alookup]

/-- Witness for C6 at a concrete registry and name. -/
theorem C6_witness :
    lmEmpty.lists = some [] ∧ alookup [] "x" = none ∧
      ∃ lm1, lmEmpty.AddList "x" = .ok (true, lm1)
        ∧ lmSize lm1 = lmSize lmEmpty + 1
        ∧ lmLookup lm1 "x" = some lmEmpty.fresh
        ∧ lm1.AddList "x" = .ok (false, lm1)
        ∧ ∃ lm2, lm1.RemoveList "x" = (true, lm2)
          ∧ ∃ lm3, lm2.AddList "x" = .ok (true, lm3)
            ∧ lmLookup lm3 "x" = some (lmEmpty.fresh + 1)
            ∧ lmLookup lm3 "x" ≠ lmLookup lm1 "x" :=
  ⟨rfl, rfl, C6_add_twice_and_fresh_lock lmEmpty [] "x" rfl rfl⟩

/-- C8: for a known name, the release closure returned by
`ReadList`/`WriteList` performs the matching unlock exactly once - applying
it to the post-acquisition state restores the original registry state (for
the write guard under the hypothesis that the lock was free, which is
exactly the condition under which `m.Lock()` completes) - and every
coordinator operation invokes the guard's release unconditionally and
exactly once on every exit path: success, Executor error (a cancellation
surfaces as such an error), and unknown resource. -/
theorem C8_release_exactly_once (lm : ListManager) (name : String) (id : Nat)
    (hk : lmLookup lm name = some id) :
    ((lm.ReadList name).1 = true ∧ (lm.ReadList name).2.1 = .runlock id ∧
      ((lm.ReadList name).2.2).applyRelease (lm.ReadList name).2.1 = lm)
    ∧ ((lm.WriteList name).1 = true ∧ (lm.WriteList name).2.1 = .wunlock id ∧
      ((∀ s, (id, s) ∈ lm.heap → s.writer = false) →
        ((lm.WriteList name).2.2).applyRelease (lm.WriteList name).2.1 = lm))
    ∧ (∀ (w : MLMMJWrapper) (r : SubRequest),
        (w.Sub r).releaseCalls = [(w.lm.WriteList (listDir r.Spool r.Name)).2.1])
    ∧ (∀ (w : MLMMJWrapper) (r : UnsubRequest),
        (w.Unsub r).releaseCalls = [(w.lm.WriteList (listDir r.Spool r.Name)).2.1])
    ∧ (∀ (w : MLMMJWrapper) (spool nm : String) (mode : UserType),
        (w.ListOp spool nm mode).releaseCalls = [(w.lm.ReadList (listDir spool nm)).2.1])
    ∧ (∀ (w : MLMMJWrapper) (spool nm : String) (order : List Nat),
        (w.ListAllMembers spool nm order).releaseCalls =
          [(w.lm.ReadList (listDir spool nm)).2.1])
    ∧ (∀ (w : MLMMJWrapper) (spool nm : String) (order : List Nat),
        (w.ListAllControllers spool nm order).releaseCalls =
          [(w.lm.ReadList (listDir spool nm)).2.1])
    ∧ (∀ (w : MLMMJWrapper) (spool nm : String) (mode : UserType),
        (w.Count spool nm mode).releaseCalls = [(w.lm.ReadList (listDir spool nm)).2.1]) := by
  refine ⟨⟨?_, ?_, ?_⟩, ⟨?_, ?_, ?_⟩, ?_, ?_, ?_, ?_, ?_, ?_⟩
  · simp [ListManager.ReadList, hk]
  · simp [ListManager.ReadList, hk]
  · simp [ListManager.ReadList, hk, ListManager.applyRelease, heapUpdate_readers_cancel]
  · simp [ListManager.WriteList, hk]
  · simp [ListManager.WriteList, hk]
  · intro hw
    simp only [ListManager.WriteList, hk, ListManager.applyRelease, heapUpdate_heapUpdate]
    rw [heapUpdate_eq_self lm.heap id _ (fun s hs => by
      obtain ⟨rd, wr⟩ := s
      have := hw _ hs
      simp at this
      simp [this])]
  · intro w r
    rcases hw : w.lm.WriteList (listDir r.Spool r.Name) with ⟨hasList, lock, lm1⟩
    cases hasList <;> simp [MLMMJWrapper.Sub, hw]
  · intro w r
    rcases hw : w.lm.WriteList (listDir r.Spool r.Name) with ⟨hasList, lock, lm1⟩
    cases hasList <;> simp [MLMMJWrapper.Unsub, hw]
  · intro w spool nm mode
    rcases hw : w.lm.ReadList (listDir spool nm) with ⟨hasList, lock, lm1⟩
    cases hasList <;> simp [MLMMJWrapper.ListOp, hw]
  · intro w spool nm order
    rcases hw : w.lm.ReadList (listDir spool nm) with ⟨hasList, lock, lm1⟩
    cases hasList <;> simp [MLMMJWrapper.ListAllMembers, hw]
  · intro w spool nm order
    rcases hw : w.lm.ReadList (listDir spool nm) with ⟨hasList, lock, lm1⟩
    cases hasList <;> simp [MLMMJWrapper.ListAllControllers, hw]
  · intro w spool nm mode
    rcases hw : w.lm.ReadList (listDir spool nm) with ⟨hasList, lock, lm1⟩
    cases hasList <;> simp [MLMMJWrapper.Count, hw]

/-- Witness for C8 at a concrete registry, name and operations. -/
theorem C8_witness :
    lmLookup lmEx "/s/l" = some 0
    ∧ ((lmEx.ReadList "/s/l").2.2).applyRelease (lmEx.ReadList "/s/l").2.1 = lmEx
    ∧ ((lmEx.WriteList "/s/l").2.2).applyRelease (lmEx.WriteList "/s/l").2.1 = lmEx
    ∧ (wrapperExFail.Sub { NewSubRequest "a@x" "l" with Spool := "/s" }).releaseCalls =
        [(wrapperExFail.lm.WriteList (listDir "/s" "l")).2.1]
    ∧ (wrapperEmpty.Count "/s" "l" Subscriber).releaseCalls =
        [(wrapperEmpty.lm.ReadList (listDir "/s" "l")).2.1] :=
  ⟨by decide,
    (C8_release_exactly_once lmEx "/s/l" 0 (by decide)).1.2.2,
    (C8_release_exactly_once lmEx "/s/l" 0 (by decide)).2.1.2.2
      (fun s hs => by simp [lmEx] at hs; simp [hs]),
    (C8_release_exactly_once lmEx "/s/l" 0 (by decide)).2.2.1 wrapperExFail
      { NewSubRequest "a@x" "l" with Spool := "/s" },
    (C8_release_exactly_once lmEx "/s/l" 0 (by decide)).2.2.2.2.2.2.2 wrapperEmpty
      "/s" "l" Subscriber⟩

/-- C4: `MakeML` invokes the Executor with no guard acquisition at all; if
the Executor fails the registry is unchanged (the name is never
registered); if it succeeds the composed name is registered via `AddList`,
which is a benign no-op when the name is already present. -/
theorem C4_create_registers_only_on_success (w : MLMMJWrapper)
    (spool name domain owner lang : String) (m : List (String × Nat))
    (hm : w.lm.lists = some m) :
    ∃ res, w.MakeML spool name domain owner lang = .ok res
      ∧ res.guardAcquisitions = 0
      ∧ res.executorCalls = 1
      ∧ res.releaseCalls = []
      ∧ res.res = (w.handler.MakeML spool name domain owner lang).1
      ∧ res.err = (w.handler.MakeML spool name domain owner lang).2
      ∧ ((w.handler.MakeML spool name domain owner lang).2.isSome → res.lm = w.lm)
      ∧ ((w.handler.MakeML spool name domain owner lang).2 = none →
          (lmLookup res.lm (listDir spool name)).isSome
          ∧ (∀ k, k ≠ listDir spool name → lmLookup res.lm k = lmLookup w.lm k)
          ∧ ((lmLookup w.lm (listDir spool name)).isSome → res.lm = w.lm)) := by
  rcases hcall : w.handler.MakeML spool name domain owner lang with ⟨output, err⟩
  cases err with
  | some e =>
    refine ⟨{ res := output, err := some e, lm := w.lm,
              guardAcquisitions := 0, executorCalls := 1, releaseCalls := [] },
      ?_, rfl, rfl, rfl, ?_, ?_, ?_, ?_⟩
    · simp [MLMMJWrapper.MakeML, hcall]
    · simp [hcall]
    · simp [hcall]
    · intro _; rfl
    · intro hnone; simp [hcall] at hnone
  | none =>
    by_cases hpres : (alookup m (listDir spool name)).isSome
    · refine ⟨{ res := output, err := none, lm := w.lm,
                guardAcquisitions := 0, executorCalls := 1, releaseCalls := [] },
        ?_, rfl, rfl, rfl, ?_, ?_, ?_, ?_⟩
      · simp [MLMMJWrapper.MakeML, hcall, ListManager.AddList, hm, hpres]
      · simp [hcall]
      · simp [hcall]
      · intro _; rfl
      · intro _
        refine ⟨?_, fun k _ => rfl, fun _ => rfl⟩
        simp [lmLookup, hm, hpres]
    · refine ⟨{ res := output, err := none,
                lm := { w.lm with
                        lists := some ((listDir spool name, w.lm.fresh) :: m)
                        heap := (w.lm.fresh, ⟨0, false⟩) :: w.lm.heap
                        fresh := w.lm.fresh + 1 },
                guardAcquisitions := 0, executorCalls := 1, releaseCalls := [] },
          ?_, rfl, rfl, rfl, ?_, ?_, ?_, ?_⟩
      · simp [MLMMJWrapper.MakeML, hcall, ListManager.AddList, hm, hpres]
      · simp [hcall]
      · simp [hcall]
      · intro hsome; simp at hsome
      · intro _
        refine ⟨?_, ?_, ?_⟩
        · simp [lmLookup, alookup]
        · intro k hne
          simp only [lmLookup, hm, alookup_cons]
          rw [if_neg (fun he => hne he.symm)]
        · intro hpres2
          rw [lmLookup, hm] at hpres2
          exact absurd hpres2 hpres

/-- Witness for C4: a succeeding creation registers the composed name, a
failing creation leaves the registry unchanged. -/
theorem C4_witness :
    (∃ res, wrapperEmpty.MakeML "/s" "l" "d" "o" "en" = .ok res
      ∧ res.guardAcquisitions = 0
      ∧ ((wrapperEmpty.handler.MakeML "/s" "l" "d" "o" "en").2 = none →
          (lmLookup res.lm (listDir "/s" "l")).isSome))
    ∧ (∃ res, wrapperExFail.MakeML "/s" "l" "d" "o" "en" = .ok res
      ∧ ((wrapperExFail.handler.MakeML "/s" "l" "d" "o" "en").2.isSome → res.lm = wrapperExFail.lm)) := by
  constructor
  · obtain ⟨res, h1, h2, _, _, _, _, _, h8⟩ :=
      C4_create_registers_only_on_success wrapperEmpty "/s" "l" "d" "o" "en" [] rfl
    exact ⟨res, h1, h2, fun hn => (h8 hn).1⟩
  · obtain ⟨res, h1, _, _, _, _, _, h7, _⟩ :=
      C4_create_registers_only_on_success wrapperExFail "/s" "l" "d" "o" "en"
        [("/s/l", 0)] rfl
    exact ⟨res, h1, h7⟩

/-- C2 counterexample: an unsubscribe request with mode Owner, issued
against a coordinator that knows the composed name and whose unsubscribe
handler is the modelled `DockerHandler.Unsub`: the call is indeed rejected
with the invalid-mode error, but its guard-acquisition count is 1, not 0 -
`WriteList` is called before the mode is ever examined. -/
theorem C2_counterexample :
    (wrapperC2.Unsub
        { NewUnsubRequest "a@x" "l" with Spool := "/s", Mode := Owner }).err =
      some (.invalidUnsubMode Owner)
    ∧ (wrapperC2.Unsub
        { NewUnsubRequest "a@x" "l" with Spool := "/s", Mode := Owner }).guardAcquisitions
      ≠ 0 := by
  constructor
  · decide
  · decide

/-- C2 amended: an unsubscribe request with mode Owner or Moderator is
rejected with the invalid-mode (InvalidRequestShape) error by the argument
construction inside the handler, so the transport is never contacted (the
result does not depend on the post oracle); but the coordinator's `Unsub`
acquires the write guard before that validation runs: the
guard-acquisition count of the call is 1, not 0, the handler is invoked
(and performs no transport work) when the list is known, and when the list
is unknown the call fails with `UnwatchedList` without the mode ever being
examined. -/
theorem C2_amended_guard_acquired_before_mode_check
    (post : String → List String → String × Option Err) (r : UnsubRequest)
    (hmode : r.Mode = Owner ∨ r.Mode = Moderator) :
    r.GetArgs = .error (.invalidUnsubMode r.Mode)
    ∧ DockerHandler.Unsub post r = ("", some (.invalidUnsubMode r.Mode))
    ∧ ∀ (lm : ListManager) (h : MLMMJHandler), h.Unsub = DockerHandler.Unsub post →
        (MLMMJWrapper.Unsub ⟨lm, h⟩ r).guardAcquisitions = 1
        ∧ ((lmLookup lm (listDir r.Spool r.Name)).isSome →
            (MLMMJWrapper.Unsub ⟨lm, h⟩ r).err = some (.invalidUnsubMode r.Mode)
            ∧ (MLMMJWrapper.Unsub ⟨lm, h⟩ r).executorCalls = 1)
        ∧ (lmLookup lm (listDir r.Spool r.Name) = none →
            (MLMMJWrapper.Unsub ⟨lm, h⟩ r).err = some .unwatchedList) := by
  have hcond : (r.Mode = Moderator ∨ r.Mode = Owner) := hmode.symm
  have hargs : r.GetArgs = .error (.invalidUnsubMode r.Mode) := by
    simp [UnsubRequest.GetArgs, hcond]
  have hdock : DockerHandler.Unsub post r = ("", some (.invalidUnsubMode r.Mode)) := by
    simp [DockerHandler.Unsub, hargs]
  refine ⟨hargs, hdock, ?_⟩
  intro lm h hh
  refine ⟨?_, ?_, ?_⟩
  · rcases hw : lm.WriteList (listDir r.Spool r.Name) with ⟨hasList, lock, lm1⟩
    cases hasList <;> simp [MLMMJWrapper.Unsub, hw]
  · intro hpres
    rcases hk : lmLookup lm (listDir r.Spool r.Name) with _ | id
    · rw [hk] at hpres; cases hpres
    · have hw : lm.WriteList (listDir r.Spool r.Name) =
          (true, .wunlock id,
            { lm with heap := heapUpdate lm.heap id (fun s => { s with writer := true }) }) := by
        simp [ListManager.WriteList, hk]
      simp [MLMMJWrapper.Unsub, hw, hh, hdock]
  · intro hnone
    have hw : lm.WriteList (listDir r.Spool r.Name) = (false, .noop, lm) := by
      simp [ListManager.WriteList, hnone]
    simp [MLMMJWrapper.Unsub, hw]

/-- Witness for C2's amended theorem at a concrete request, registry and
transport oracle. -/
theorem C2_witness :
    ({ NewUnsubRequest "a@x" "l" with Spool := "/s", Mode := Owner } : UnsubRequest).Mode
      = Owner
    ∧ ({ NewUnsubRequest "a@x" "l" with Spool := "/s", Mode := Owner } : UnsubRequest).GetArgs
      = .error (.invalidUnsubMode Owner)
    ∧ (wrapperC2.Unsub
        { NewUnsubRequest "a@x" "l" with Spool := "/s", Mode := Owner }).guardAcquisitions
      = 1 := by
  have h := C2_amended_guard_acquired_before_mode_check
    (fun _ _ => ("posted", none))
    { NewUnsubRequest "a@x" "l" with Spool := "/s", Mode := Owner }
    (Or.inl rfl)
  exact ⟨rfl, h.1, (h.2.2 lmEx handlerDockerEx rfl).1⟩

/-- C9 counterexample: for the known name of the concrete registry `lmEx`,
the `WriteList` trace places the top-level unlock after the per-resource
acquisition (the unlock is deferred to function return), so the claimed
property "the top-level lock is released before the per-resource lock
acquisition completes" fails. -/
theorem C9_counterexample :
    lmLookup lmEx "/s/l" = some 0
    ∧ lmEx.WriteListTrace "/s/l" = [.topRLock, .resWLock 0, .topRUnlock]
    ∧ ¬ topReleasedBeforeResAcquire (lmEx.WriteListTrace "/s/l") := by
  refine ⟨by decide, by decide, ?_⟩
  intro hclaim
  have h2 := hclaim 2 1 (by decide) (by decide) (by decide) (by decide)
  omega

/-- C9 amended: in `ReadList`/`WriteList` the top-level lock is acquired
first and released last - the deferred unlock runs at function return, so
the top-level lock is held across the (potentially blocking) per-resource
acquisition rather than released before it.  It is not held across the
operation body: in the coordinator's trace the Executor call strictly
follows the top-level unlock, which happens when the guard-acquisition call
returns. -/
theorem C9_amended_top_lock_held_across_acquire (lm : ListManager) (name : String)
    (id : Nat) (hk : lmLookup lm name = some id) :
    lm.ReadListTrace name = [.topRLock, .resRLock id, .topRUnlock]
    ∧ lm.WriteListTrace name = [.topRLock, .resWLock id, .topRUnlock]
    ∧ ∀ (h : MLMMJHandler) (r : SubRequest), listDir r.Spool r.Name = name →
        MLMMJWrapper.SubTrace ⟨lm, h⟩ r =
          [.topRLock, .resWLock id, .topRUnlock, .execCall, .resWUnlock id] := by
  refine ⟨?_, ?_, ?_⟩
  · simp [ListManager.ReadListTrace, hk]
  · simp [ListManager.WriteListTrace, hk]
  · intro h r hname
    simp [MLMMJWrapper.SubTrace, hname, hk]

/-- Witness for C9's amended theorem at a concrete registry and request. -/
theorem C9_witness :
    lmLookup lmEx "/s/l" = some 0
    ∧ lmEx.WriteListTrace "/s/l" = [.topRLock, .resWLock 0, .topRUnlock]
    ∧ MLMMJWrapper.SubTrace ⟨lmEx, handlerOK⟩ { NewSubRequest "a@x" "l" with Spool := "/s" } =
        [.topRLock, .resWLock 0, .topRUnlock, .execCall, .resWUnlock 0] := by
  have h := C9_amended_top_lock_held_across_acquire lmEx "/s/l" 0 (by decide)
  exact ⟨by decide, h.2.1,
    h.2.2 handlerOK { NewSubRequest "a@x" "l" with Spool := "/s" } (by decide)⟩

/-- C3 counterexample: on a known resource, with the arrival schedule in
which the Digest task's message is received first, `ListAllMembers` reports
the Digest query's error "B" even though the Subscriber query (the leftmost
category) also failed, with error "A": the reported error follows arrival
order, not a stable left-to-right precedence over the category order. -/
theorem C3_counterexample :
    List.Perm [1, 0, 2] [0, 1, 2]
    ∧ (wrapperC3.handler.ListOp "/s" "l" Subscriber).2 = some (.handlerErr "A")
    ∧ (wrapperC3.handler.ListOp "/s" "l" Digest).2 = some (.handlerErr "B")
    ∧ (wrapperC3.ListAllMembers "/s" "l" [1, 0, 2]).err = some (.handlerErr "B")
    ∧ (wrapperC3.ListAllMembers "/s" "l" [1, 0, 2]).err ≠ some (.handlerErr "A") := by
  refine ⟨by decide, rfl, rfl, by decide, by decide⟩

/-- C3 amended: on a known resource both fan-out operations wait for all
their sub-query tasks (the returned tuple carries every task's partial
data, whatever the errors), the reported error is the first non-nil error
in the arrival order of the task messages - nil exactly when every task
succeeded, and equal to the unique failing task's error whenever exactly
one task fails (in particular partial data from the other tasks is then
still returned) - and a later task's success never clears an error already
captured (a non-nil `firstErr` of a prefix persists). -/
theorem C3_amended_fanout_arrival_order (w : MLMMJWrapper) (spool name : String)
    (order : List Nat) (id : Nat) (hk : lmLookup w.lm (listDir spool name) = some id)
    (hperm : List.Perm order [0, 1, 2]) :
    (w.ListAllMembers spool name order).res =
      ((w.handler.ListOp spool name Subscriber).1,
        (w.handler.ListOp spool name Digest).1,
        (w.handler.ListOp spool name Nomail).1)
    ∧ (w.ListAllMembers spool name order).executorCalls = 3
    ∧ ((w.ListAllMembers spool name order).err = none ↔
        (w.handler.ListOp spool name Subscriber).2 = none ∧
        (w.handler.ListOp spool name Digest).2 = none ∧
        (w.handler.ListOp spool name Nomail).2 = none)
    ∧ (∀ j e, j < 3 →
        (w.handler.ListOp spool name (memberCats.getD j (-1))).2 = some e →
        (∀ i, i < 3 → i ≠ j →
          (w.handler.ListOp spool name (memberCats.getD i (-1))).2 = none) →
        (w.ListAllMembers spool name order).err = some e)
    ∧ (∀ order2, List.Perm order2 [0, 1] →
        (w.ListAllControllers spool name order2).res =
          ((w.handler.ListOp spool name Owner).1,
            (w.handler.ListOp spool name Moderator).1)
        ∧ (w.ListAllControllers spool name order2).executorCalls = 2
        ∧ ((w.ListAllControllers spool name order2).err = none ↔
            (w.handler.ListOp spool name Owner).2 = none ∧
            (w.handler.ListOp spool name Moderator).2 = none)
        ∧ (∀ j e, j < 2 →
            (w.handler.ListOp spool name (controllerCats.getD j (-1))).2 = some e →
            (∀ i, i < 2 → i ≠ j →
              (w.handler.ListOp spool name (controllerCats.getD i (-1))).2 = none) →
            (w.ListAllControllers spool name order2).err = some e))
    ∧ (∀ (l1 l2 : List (Option Err)) (e : Err),
        firstErr l1 = some e → firstErr (l1 ++ l2) = some e) := by
  have herr : ∀ ord, (w.ListAllMembers spool name ord).err =
      firstErr (ord.map (fun i => (w.handler.ListOp spool name (memberCats.getD i (-1))).2)) := by
    intro ord
    simp [MLMMJWrapper.ListAllMembers, ListManager.ReadList, hk]
  have herr2 : ∀ ord, (w.ListAllControllers spool name ord).err =
      firstErr (ord.map (fun i => (w.handler.ListOp spool name (controllerCats.getD i (-1))).2)) := by
    intro ord
    simp [MLMMJWrapper.ListAllControllers, ListManager.ReadList, hk]
  refine ⟨?_, ?_, ?_, ?_, ?_, ?_⟩
  · simp [MLMMJWrapper.ListAllMembers, ListManager.ReadList, hk, memberCats]
  · simp [MLMMJWrapper.ListAllMembers, ListManager.ReadList, hk]
  · rw [herr, firstErr_eq_none_iff]
    constructor
    · intro hall
      refine ⟨?_, ?_, ?_⟩
      · simpa [memberCats] using
          hall _ (List.mem_map_of_mem _ (hperm.mem_iff.mpr (by decide : (0 : Nat) ∈ [0, 1, 2])))
      · simpa [memberCats] using
          hall _ (List.mem_map_of_mem _ (hperm.mem_iff.mpr (by decide : (1 : Nat) ∈ [0, 1, 2])))
      · simpa [memberCats] using
          hall _ (List.mem_map_of_mem _ (hperm.mem_iff.mpr (by decide : (2 : Nat) ∈ [0, 1, 2])))
    · rintro ⟨h0, h1, h2⟩ x hx
      obtain ⟨i, hi, rfl⟩ := List.mem_map.mp hx
      have hmem : i = 0 ∨ i = 1 ∨ i = 2 := by simpa using hperm.subset hi
      rcases hmem with rfl | rfl | rfl
      · simpa [memberCats] using h0
      · simpa [memberCats] using h1
      · simpa [memberCats] using h2
  · intro j e hj hgj hrest
    rw [herr]
    refine firstErr_of_single order _ j e
      (hperm.mem_iff.mpr (by simp; omega)) hgj ?_
    intro i hi hne
    have hmem : i = 0 ∨ i = 1 ∨ i = 2 := by simpa using hperm.subset hi
    exact hrest i (by omega) hne
  · intro order2 hperm2
    refine ⟨?_, ?_, ?_, ?_⟩
    · simp [MLMMJWrapper.ListAllControllers, ListManager.ReadList, hk, controllerCats]
    · simp [MLMMJWrapper.ListAllControllers, ListManager.ReadList, hk]
    · rw [herr2, firstErr_eq_none_iff]
      constructor
      · intro hall
        constructor
        · simpa [controllerCats] using
            hall _ (List.mem_map_of_mem _ (hperm2.mem_iff.mpr (by decide : (0 : Nat) ∈ [0, 1])))
        · simpa [controllerCats] using
            hall _ (List.mem_map_of_mem _ (hperm2.mem_iff.mpr (by decide : (1 : Nat) ∈ [0, 1])))
      · rintro ⟨h0, h1⟩ x hx
        obtain ⟨i, hi, rfl⟩ := List.mem_map.mp hx
        have hmem : i = 0 ∨ i = 1 := by simpa using hperm2.subset hi
        rcases hmem with rfl | rfl
        · simpa [controllerCats] using h0
        · simpa [controllerCats] using h1
    · intro j e hj hgj hrest
      rw [herr2]
      refine firstErr_of_single order2 _ j e
        (hperm2.mem_iff.mpr (by simp; omega)) hgj ?_
      intro i hi hne
      have hmem : i = 0 ∨ i = 1 := by simpa using hperm2.subset hi
      exact hrest i (by omega) hne
  · exact fun l1 l2 e h => firstErr_append_some l1 l2 e h

/-- Witness for C3's amended theorem: an all-succeeding fan-out, and a
fan-out whose unique failing task's error is surfaced while the other
tasks' partial data is preserved. -/
theorem C3_witness :
    lmLookup wrapperEx.lm (listDir "/s" "l") = some 0
    ∧ ((wrapperEx.ListAllMembers "/s" "l" [0, 1, 2]).err = none ↔
        (wrapperEx.handler.ListOp "/s" "l" Subscriber).2 = none ∧
        (wrapperEx.handler.ListOp "/s" "l" Digest).2 = none ∧
        (wrapperEx.handler.ListOp "/s" "l" Nomail).2 = none)
    ∧ (wrapperOneFail.ListAllMembers "/s" "l" [2, 1, 0]).err = some (.handlerErr "B")
    ∧ (wrapperOneFail.ListAllMembers "/s" "l" [2, 1, 0]).res =
        ((wrapperOneFail.handler.ListOp "/s" "l" Subscriber).1,
          (wrapperOneFail.handler.ListOp "/s" "l" Digest).1,
          (wrapperOneFail.handler.ListOp "/s" "l" Nomail).1) := by
  have h1 := C3_amended_fanout_arrival_order wrapperEx "/s" "l" [0, 1, 2] 0
    (by decide) (by decide)
  have h2 := C3_amended_fanout_arrival_order wrapperOneFail "/s" "l" [2, 1, 0] 0
    (by decide) (by decide)
  exact ⟨by decide, h1.2.2.1,
    h2.2.2.2.1 1 (.handlerErr "B") (by omega) (by decide) (by decide), h2.1⟩

theorem addAll_lookup (names : List String) (lm : ListManager) (m : List (String × Nat))
    (hm : lm.lists = some m) :
    ∃ m2, (addAll lm names).lists = some m2 ∧
      ∀ k, ((alookup m2 k).isSome ↔ (alookup m k).isSome ∨ k ∈ names) := by
  induction names generalizing lm m with
  | nil => exact ⟨m, hm, fun k => by simp [addAll, hm]⟩
  | cons n t ih =>
    by_cases hpres : (alookup m n).isSome
    · have hstep : addAll lm (n :: t) = addAll lm t := by
        simp [addAll, ListManager.AddList, hm, hpres]
      obtain ⟨m2, h2, hiff⟩ := ih lm m hm
      rw [hstep]
      refine ⟨m2, h2, fun k => ?_⟩
      rw [hiff k]
      constructor
      · rintro (h | h)
        · exact Or.inl h
        · exact Or.inr (List.mem_cons_of_mem _ h)
      · rintro (h | h)
        · exact Or.inl h
        · rcases List.mem_cons.mp h with rfl | h2
          · exact Or.inl hpres
          · exact Or.inr h2
    · have hstep : addAll lm (n :: t) =
          addAll { lm with
            lists := some ((n, lm.fresh) :: m)
            heap := (lm.fresh, ⟨0, false⟩) :: lm.heap
            fresh := lm.fresh + 1 } t := by
        simp [addAll, ListManager.AddList, hm, hpres]
      obtain ⟨m2, h2, hiff⟩ := ih
        { lm with
          lists := some ((n, lm.fresh) :: m)
          heap := (lm.fresh, ⟨0, false⟩) :: lm.heap
          fresh := lm.fresh + 1 } ((n, lm.fresh) :: m) rfl
      rw [hstep]
      refine ⟨m2, h2, fun k => ?_⟩
      rw [hiff k]
      simp only [alookup_cons, List.mem_cons]
      by_cases hk : n = k
      · subst hk
        simp [hpres]
      · have hk2 : ¬(k = n) := fun he => hk he.symm
        simp [hk, hk2]

theorem foldl_addAll_lookup (order : List Nat) (blocks : Nat → List String)
    (lm : ListManager) (m : List (String × Nat)) (hm : lm.lists = some m) :
    ∃ m2, (order.foldl (fun acc i => addAll acc (blocks i)) lm).lists = some m2 ∧
      ∀ k, ((alookup m2 k).isSome ↔
        (alookup m k).isSome ∨ ∃ i ∈ order, k ∈ blocks i) := by
  induction order generalizing lm m with
  | nil => exact ⟨m, hm, fun k => by simp⟩
  | cons i t ih =>
    obtain ⟨m1, h1, hiff1⟩ := addAll_lookup (blocks i) lm m hm
    obtain ⟨m2, h2, hiff2⟩ := ih (addAll lm (blocks i)) m1 h1
    refine ⟨m2, h2, fun k => ?_⟩
    rw [hiff2 k, hiff1 k]
    constructor
    · rintro ((h | h) | ⟨j, hj, hkj⟩)
      · exact Or.inl h
      · exact Or.inr ⟨i, List.mem_cons_self _ _, h⟩
      · exact Or.inr ⟨j, List.mem_cons_of_mem _ hj, hkj⟩
    · rintro (h | ⟨j, hj, hkj⟩)
      · exact Or.inl (Or.inl h)
      · rcases List.mem_cons.mp hj with rfl | hj2
        · exact Or.inl (Or.inr hkj)
        · exact Or.inr ⟨j, hj2, hkj⟩

/-- C5: `Init` discards the whole previous mapping (the resulting name set
does not depend on the prior registry), queries every source with no
short-circuit - every succeeding source's composed names are installed,
whatever the other sources did - returns nil exactly when all sources
succeed and, in general, the first non-nil discovery error in arrival
order; with exactly one failing source the returned error is that source's
and the registry still contains every name from every other source. -/
theorem C5_init_partial_population (lm : ListManager)
    (readDir : String → Except Err (List FileInfo)) (spoolList : List String)
    (order : List Nat) (hperm : List.Perm order (List.range spoolList.length)) :
    (∀ k, ((lmLookup (lm.Init readDir spoolList order).1 k).isSome ↔
        ∃ i, i < spoolList.length ∧ k ∈ (initTask readDir (spoolList.getD i "")).1))
    ∧ ((lm.Init readDir spoolList order).2 = none ↔
        ∀ i, i < spoolList.length → (initTask readDir (spoolList.getD i "")).2 = none)
    ∧ ((lm.Init readDir spoolList order).2 =
        firstErr (order.map (fun i => (initTask readDir (spoolList.getD i "")).2)))
    ∧ (∀ j e, j < spoolList.length →
        (initTask readDir (spoolList.getD j "")).2 = some e →
        (∀ i, i < spoolList.length → i ≠ j →
          (initTask readDir (spoolList.getD i "")).2 = none) →
        (lm.Init readDir spoolList order).2 = some e
        ∧ ∀ i k, i < spoolList.length → i ≠ j →
            k ∈ (initTask readDir (spoolList.getD i "")).1 →
            (lmLookup (lm.Init readDir spoolList order).1 k).isSome) := by
  obtain ⟨m2, hm2, hiff⟩ := foldl_addAll_lookup order
    (fun i => (initTask readDir (spoolList.getD i "")).1)
    { lm with lists := some [] } [] rfl
  have hmem : ∀ k, ((lmLookup (lm.Init readDir spoolList order).1 k).isSome ↔
      ∃ i, i < spoolList.length ∧ k ∈ (initTask readDir (spoolList.getD i "")).1) := by
    intro k
    have hl : lmLookup (lm.Init readDir spoolList order).1 k = alookup m2 k := by
      show lmLookup (order.foldl _ { lm with lists := some [] }) k = alookup m2 k
      rw [lmLookup, hm2]
    rw [hl, hiff k]
    simp only [alookup, Option.isSome_none, Bool.false_eq_true, false_or]
    constructor
    · rintro ⟨i, hi, hk⟩
      exact ⟨i, List.mem_range.mp (hperm.subset hi), hk⟩
    · rintro ⟨i, hi, hk⟩
      exact ⟨i, hperm.mem_iff.mpr (List.mem_range.mpr hi), hk⟩
  refine ⟨hmem, ?_, rfl, ?_⟩
  · show firstErr _ = none ↔ _
    rw [firstErr_eq_none_iff]
    constructor
    · intro hall i hi
      exact hall _ (List.mem_map_of_mem _ (hperm.mem_iff.mpr (List.mem_range.mpr hi)))
    · intro hall x hx
      obtain ⟨i, hi, rfl⟩ := List.mem_map.mp hx
      exact hall i (List.mem_range.mp (hperm.subset hi))
  · intro j e hj hgj hrest
    constructor
    · show firstErr _ = some e
      exact firstErr_of_single order _ j e
        (hperm.mem_iff.mpr (List.mem_range.mpr hj)) hgj
        (fun i hi hne => hrest i (List.mem_range.mp (hperm.subset hi)) hne)
    · intro i k hi hne hk
      exact (hmem k).mpr ⟨i, hi, hk⟩

/-- Witness for C5: three sources of which exactly the middle one fails
discovery - the error is surfaced and the names discovered by the other
two sources are both installed. -/
theorem C5_witness :
    List.Perm [2, 0, 1] (List.range (["/a", "/b", "/c"] : List String).length)
    ∧ (lmEmpty.Init readDirEx ["/a", "/b", "/c"] [2, 0, 1]).2 = some (.handlerErr "boom")
    ∧ (lmLookup (lmEmpty.Init readDirEx ["/a", "/b", "/c"] [2, 0, 1]).1 "/a/l1").isSome
    ∧ (lmLookup (lmEmpty.Init readDirEx ["/a", "/b", "/c"] [2, 0, 1]).1 "/c/l2").isSome := by
  have h := C5_init_partial_population lmEmpty readDirEx ["/a", "/b", "/c"] [2, 0, 1]
    (by decide)
  have h4 := h.2.2.2 1 (.handlerErr "boom") (by decide) (by decide) (by decide)
  exact ⟨by decide, h4.1,
    h4.2 0 "/a/l1" (by decide) (by decide) (by decide),
    h4.2 2 "/c/l2" (by decide) (by decide) (by decide)⟩

end Gomlmmj
